import Mathlib

/-!
Verification of the heliocron solar event engine and wait scheduler.

The Rust source is shallowly embedded as follows:
* `f64` values are modelled as exact numbers: rationals (`ℚ`) for the purely
  arithmetic day-fraction conversion (every finite `f64` value is a rational),
  and reals (`ℝ`) where the code applies transcendental trigonometric
  functions.
* `chrono` date-times with a fixed offset are modelled as a calendar day index
  (`ℤ`) together with hour/minute/second components; the fixed UTC offset is
  constant throughout each computation and plays no role in the claims.
* Fallible operations (`Option`, `Result`, panics) are modelled with
  `Option`/`Except` values, with a dedicated value standing for a panic.
-/

namespace Heliocron

/-! ## Day-fraction → date-time conversion
(`src/calc.rs`, `SolarCalculations::day_fraction_to_datetime`, lines 138-164;
the legacy copy `SolarReport::day_fraction_to_datetime` in `src/report.rs`
lines 160-192 performs the identical fraction arithmetic)

The conversion is written once, generically over a linear ordered field with a
floor function, and used at `ℚ` (where it mirrors the f64 program on the
representable inputs and is executable) and at `ℝ` (where it is composed with
the trigonometric event resolver). -/

section Conversion

variable {α : Type} [LinearOrderedField α] [FloorRing α]

/-- Rust `f64::trunc`: round toward zero. -/
def truncToZero (x : α) : ℤ := if x < 0 then ⌈x⌉ else ⌊x⌋

/-- Rust `f64::fract`: `self - self.trunc()`. -/
def fractPart (x : α) : α := x - (truncToZero x : α)

/-- `SolarCalculations::day_fraction_to_datetime`.

The input is an anchor calendar day `date` (from `self.date.naive_local()`)
and a day fraction `f`.  The source first corrects the date when the fraction
is out of `[0,1)`: for a negative fraction it moves one day back and replaces
the fraction by its absolute value (`day_fraction = day_fraction.abs()`), for
a fraction `≥ 1` it moves one day forward and subtracts 1.  It then expands
the fraction into hour/minute/second components by successive multiplication
and truncation, and builds a `NaiveTime` via `NaiveTime::from_hms`, which
panics unless `hour < 24 ∧ minute < 60 ∧ second < 60`; the panic is modelled
as `none`.  The `as u32` casts saturate negative values to zero (the upper
saturation bound of `u32` is unreachable for the fractions considered in the
claims); re-attaching the fixed offset via `from_local_date(..).and_time(..)`
always succeeds for a `FixedOffset` and adds no information to the model. -/
def dayFractionToDatetime (date : ℤ) (f : α) : Option (ℤ × ℤ × ℤ × ℤ) :=
  let p : ℤ × α :=
    if f < 0 then (date - 1, |f|)
    else if 1 ≤ f then (date + 1, f - 1)
    else (date, f)
  let hourFraction := p.2 * 24
  let minuteFraction := fractPart hourFraction * 60
  let secondFraction := fractPart minuteFraction * 60
  let hour := max 0 (truncToZero hourFraction)
  let minute := max 0 (truncToZero minuteFraction)
  let second := max 0 (truncToZero secondFraction)
  if hour < 24 ∧ minute < 60 ∧ second < 60 then some (p.1, hour, minute, second)
  else none

/-- Total seconds represented by a `(day, hour, minute, second)` tuple;
used to compare the date-times produced by the conversion. -/
def naiveSeconds (r : ℤ × ℤ × ℤ × ℤ) : ℤ :=
  r.1 * 86400 + r.2.1 * 3600 + r.2.2.1 * 60 + r.2.2.2

end Conversion

/-! ## Event model and construction from a name string
(`src/enums.rs`, `Event` and `Event::new`, lines 59-107) -/

namespace Enums

inductive TimeOfDay
  | am
  | pm
deriving DecidableEq

/-- `enums::Event`: one variant per named event, each fixed-elevation variant
carrying its degrees-below-horizon value and time of day. -/
inductive Event
  | sunrise (degreesBelowHorizon : ℚ) (timeOfDay : TimeOfDay)
  | sunset (degreesBelowHorizon : ℚ) (timeOfDay : TimeOfDay)
  | civilDawn (degreesBelowHorizon : ℚ) (timeOfDay : TimeOfDay)
  | civilDusk (degreesBelowHorizon : ℚ) (timeOfDay : TimeOfDay)
  | nauticalDawn (degreesBelowHorizon : ℚ) (timeOfDay : TimeOfDay)
  | nauticalDusk (degreesBelowHorizon : ℚ) (timeOfDay : TimeOfDay)
  | astronomicalDawn (degreesBelowHorizon : ℚ) (timeOfDay : TimeOfDay)
  | astronomicalDusk (degreesBelowHorizon : ℚ) (timeOfDay : TimeOfDay)
  | customAM (degreesBelowHorizon : ℚ) (timeOfDay : TimeOfDay)
  | customPM (degreesBelowHorizon : ℚ) (timeOfDay : TimeOfDay)
  | solarNoon
deriving DecidableEq

/-- The possible outcomes of `Event::new`: a constructed event, the
`HeliocronError::Config(ConfigErrorKind::InvalidEvent)` error, or a panic
(the `custom_altitude.unwrap()` call on a `None`). -/
inductive NewResult
  | ok (event : Event)
  | configErrorInvalidEvent
  | panicked
deriving DecidableEq

/-- The fixed vocabulary of event names accepted by `Event::new`. -/
def vocabulary : List String :=
  ["sunrise", "sunset", "civil_dawn", "civil_dusk", "nautical_dawn",
    "nautical_dusk", "astronomical_dawn", "astronomical_dusk", "custom_am",
    "custom_pm", "solar_noon"]

/-- `Event::new` (src/enums.rs lines 59-107): trims and lowercases the name,
then dispatches by string matching.  For `custom_am`/`custom_pm` the source
calls `custom_altitude.unwrap()`, which panics when no altitude was supplied;
any name outside the vocabulary yields the `InvalidEvent` configuration
error. -/
def Event.new (event : String) (customAltitude : Option ℚ) : NewResult :=
  match event.trim.toLower with
  | "sunrise" => .ok (.sunrise (833/1000) .am)
  | "sunset" => .ok (.sunset (833/1000) .pm)
  | "civil_dawn" => .ok (.civilDawn 6 .am)
  | "civil_dusk" => .ok (.civilDusk 6 .pm)
  | "nautical_dawn" => .ok (.nauticalDawn 12 .am)
  | "nautical_dusk" => .ok (.nauticalDusk 12 .pm)
  | "astronomical_dawn" => .ok (.astronomicalDawn 18 .am)
  | "astronomical_dusk" => .ok (.astronomicalDusk 18 .pm)
  | "custom_am" =>
    match customAltitude with
    | some alt => .ok (.customAM alt .am)
    | none => .panicked
  | "custom_pm" =>
    match customAltitude with
    | some alt => .ok (.customPM alt .pm)
    | none => .panicked
  | "solar_noon" => .ok .solarNoon
  | _ => .configErrorInvalidEvent

end Enums

/-! ## Domain event types (`src/domain.rs`) -/

namespace Domain

/-- `domain::Direction`. -/
inductive Direction
  | ascending
  | descending
deriving DecidableEq

/-- `domain::FixedElevationEvent`: a degrees-below-horizon value (an
`Altitude`, validated in `[-90, 90]` at construction) and a direction of
travel.  The altitude is carried here as a plain real; the `[-90, 90]`
validation appears as an explicit hypothesis where it matters. -/
structure FixedElevationEvent where
  degreesBelowHorizon : ℝ
  solarDirection : Direction

/-- `domain::VariableElevationEvent`. -/
inductive VariableElevationEvent
  | solarNoon

/-- `domain::Event`. -/
inductive Event
  | fixed (event : FixedElevationEvent)
  | variableElevation (event : VariableElevationEvent)

end Domain

/-! ## Solar calculation context and event-time resolver
(`src/calc.rs`, `SolarCalculations`)

The context owns the anchor date, the coordinates and the three scalars that
`SolarCalculations::new` derives once from them (`solar_declination`,
`solar_noon_fraction`, `corrected_solar_elevation_angle`).  The claims below
quantify over the context's fields; the trigonometric derivation in `new` is
not needed to settle them. -/

namespace Calc

open Domain

/-- The `SolarCalculations` state (src/calc.rs lines 13-21), with the
date reduced to its calendar day index. -/
structure SolarCalculations where
  date : ℤ
  latitude : ℝ
  longitude : ℝ
  solarDeclination : ℝ
  solarNoonFraction : ℝ
  correctedSolarElevationAngle : ℝ

/-- Rust `f64::to_radians`: `self * (PI / 180)`. -/
noncomputable def toRadians (x : ℝ) : ℝ := x * (Real.pi / 180)

/-- Rust `f64::to_degrees`: `self * (180 / PI)`. -/
noncomputable def toDegrees (x : ℝ) : ℝ := x * (180 / Real.pi)

/-- The argument passed to `acos` in `SolarCalculations::hour_angle`
(src/calc.rs lines 166-180): with `event_angle = degrees_below_horizon + 90`,
`cos(event_angle) / (cos(latitude)·cos(declination)) −
tan(latitude)·tan(declination)`, all angles converted to radians. -/
noncomputable def hourAngleArg (c : SolarCalculations) (degreesBelowHorizon : ℝ) : ℝ :=
  Real.cos (toRadians (degreesBelowHorizon + 90)) /
      (Real.cos (toRadians c.latitude) * Real.cos (toRadians c.solarDeclination)) -
    Real.tan (toRadians c.latitude) * Real.tan (toRadians c.solarDeclination)

/-- `SolarCalculations::hour_angle`: `acos` of the argument, converted to
degrees.  `f64::acos` returns NaN exactly when its argument lies outside
`[-1, 1]`; the source's `is_nan` test therefore maps to this domain check,
with `none` for the NaN case. -/
noncomputable def hourAngle (c : SolarCalculations) (degreesBelowHorizon : ℝ) : Option ℝ :=
  open Classical in
  if hourAngleArg c degreesBelowHorizon < -1 ∨ 1 < hourAngleArg c degreesBelowHorizon then none
  else some (toDegrees (Real.arccos (hourAngleArg c degreesBelowHorizon)))

/-- `SolarCalculations::solar_noon` (src/calc.rs lines 133-136): the solar
noon fraction converted to a date-time and wrapped in `Some`.  The outer
`Option` models the (unreachable for realistic fractions) `from_hms` panic in
the conversion; the inner one is the `EventTime` payload. -/
noncomputable def solarNoon (c : SolarCalculations) : Option (Option (ℤ × ℤ × ℤ × ℤ)) :=
  (dayFractionToDatetime c.date c.solarNoonFraction).map some

/-- The day fraction computed inside `SolarCalculations::event_time` for a
fixed-elevation event: `solar_noon_fraction ∓ hour_angle / 360` (minus for
ascending, plus for descending), absent when the hour angle is NaN. -/
noncomputable def eventDayFraction (c : SolarCalculations) (e : FixedElevationEvent) :
    Option ℝ :=
  (hourAngle c e.degreesBelowHorizon).map fun ha =>
    match e.solarDirection with
    | .ascending => c.solarNoonFraction - ha / 360
    | .descending => c.solarNoonFraction + ha / 360

/-- `SolarCalculations::event_time` (src/calc.rs lines 182-209).  For a
fixed-elevation event, an undefined hour angle yields `EventTime(None)`
(modelled `some none`); otherwise the day fraction is converted to a
date-time and wrapped in `Some`.  The solar noon event delegates to
`solar_noon`. -/
noncomputable def eventTime (c : SolarCalculations) : Event → Option (Option (ℤ × ℤ × ℤ × ℤ))
  | .fixed e =>
    match eventDayFraction c e with
    | some f => (dayFractionToDatetime c.date f).map some
    | none => some none
  | .variableElevation .solarNoon => solarNoon c

end Calc

/-! ## Wait scheduler
(`src/utils.rs` `wait`, lines 19-39, and `src/subcommands.rs` `wait`,
lines 22-58)

Instants are modelled as whole seconds (`ℤ`); `chrono` durations between them
are their differences.  The suspension itself (`sleep`, driven by an absolute
wall-clock target) is opaque to these claims: what is verified is the
decision logic before the suspension starts and after it returns. -/

namespace Sched

/-- `errors::RuntimeErrorKind`.  `errors.rs` declares `NonOccurringEvent` and
`PastEvent`; the `EventMissed` variant carrying the overrun in seconds is the
one constructed by `subcommands::wait`. -/
inductive RuntimeErrorKind
  | nonOccurringEvent
  | pastEvent
  | eventMissed (missedBy : ℤ)
deriving DecidableEq

/-- `utils::wait`: the duration to wait is `wait_until - now`;
`chrono::Duration::to_std` fails exactly when the duration is negative, which
the source maps to the `PastEvent` runtime error before any sleep is
attempted.  Otherwise the thread suspends until the absolute instant
`wait_until`; the returned value is that absolute suspension target. -/
def utilsWait (waitUntil now : ℤ) : Except RuntimeErrorKind ℤ :=
  if waitUntil - now < 0 then .error .pastEvent else .ok waitUntil

/-- The tail of `subcommands::wait` (src/subcommands.rs lines 40-52), entered
after the suspension returns: with `run_missed_task` set the task always
proceeds; otherwise the overrun `now - wait_until` is compared against the
fixed 30-second tolerance and an `EventMissed` error carrying the overrun is
raised when it is exceeded. -/
def afterSleep (runMissedTask : Bool) (waitUntil now : ℤ) : Except RuntimeErrorKind Unit :=
  if runMissedTask then .ok ()
  else
    let missedBy := now - waitUntil
    if 30 < missedBy then .error (.eventMissed missedBy) else .ok ()

end Sched

/-! ### Structural lemmas about the conversion -/

section ConversionLemmas

variable {α : Type} [LinearOrderedField α] [FloorRing α]

theorem truncToZero_of_nonneg {x : α} (h : 0 ≤ x) : truncToZero x = ⌊x⌋ := by
  unfold truncToZero
  rw [if_neg (not_lt.mpr h)]

theorem fractPart_nonneg {x : α} (h : 0 ≤ x) : 0 ≤ fractPart x := by
  unfold fractPart
  rw [truncToZero_of_nonneg h]
  exact sub_nonneg.mpr (Int.floor_le x)

theorem fractPart_lt_one {x : α} (h : 0 ≤ x) : fractPart x < 1 := by
  unfold fractPart
  rw [truncToZero_of_nonneg h]
  have := Int.lt_floor_add_one x
  linarith

/-- For a fraction already in `[0,1)` no date correction fires, the guard of
`NaiveTime::from_hms` is satisfied, and the components are the successive
truncations, each within the valid hour/minute/second range. -/
theorem dayFractionToDatetime_of_unit (d : ℤ) (f : α) (h0 : 0 ≤ f) (h1 : f < 1) :
    dayFractionToDatetime d f =
      some (d, truncToZero (f * 24), truncToZero (fractPart (f * 24) * 60),
        truncToZero (fractPart (fractPart (f * 24) * 60) * 60)) ∧
    0 ≤ truncToZero (f * 24) ∧ truncToZero (f * 24) ≤ 23 ∧
    0 ≤ truncToZero (fractPart (f * 24) * 60) ∧
      truncToZero (fractPart (f * 24) * 60) ≤ 59 ∧
    0 ≤ truncToZero (fractPart (fractPart (f * 24) * 60) * 60) ∧
      truncToZero (fractPart (fractPart (f * 24) * 60) * 60) ≤ 59 := by
  have hf24 : (0:α) ≤ f * 24 := by positivity
  have hm : (0:α) ≤ fractPart (f * 24) * 60 := by
    have := fractPart_nonneg hf24
    positivity
  have hs : (0:α) ≤ fractPart (fractPart (f * 24) * 60) * 60 := by
    have := fractPart_nonneg hm
    positivity
  have hhour : truncToZero (f * 24) < 24 := by
    rw [truncToZero_of_nonneg hf24]
    rw [Int.floor_lt]
    push_cast
    linarith
  have hminute : truncToZero (fractPart (f * 24) * 60) < 60 := by
    rw [truncToZero_of_nonneg hm]
    rw [Int.floor_lt]
    push_cast
    have := fractPart_lt_one hf24
    linarith
  have hsecond : truncToZero (fractPart (fractPart (f * 24) * 60) * 60) < 60 := by
    rw [truncToZero_of_nonneg hs]
    rw [Int.floor_lt]
    push_cast
    have := fractPart_lt_one hm
    linarith
  have hhour0 : 0 ≤ truncToZero (f * 24) := by
    rw [truncToZero_of_nonneg hf24]
    exact Int.floor_nonneg.mpr hf24
  have hminute0 : 0 ≤ truncToZero (fractPart (f * 24) * 60) := by
    rw [truncToZero_of_nonneg hm]
    exact Int.floor_nonneg.mpr hm
  have hsecond0 : 0 ≤ truncToZero (fractPart (fractPart (f * 24) * 60) * 60) := by
    rw [truncToZero_of_nonneg hs]
    exact Int.floor_nonneg.mpr hs
  refine ⟨?_, hhour0, by omega, hminute0, by omega, hsecond0, by omega⟩
  simp only [dayFractionToDatetime]
  rw [if_neg (not_lt.mpr h0), if_neg (not_le.mpr h1)]
  simp only [max_eq_right hhour0, max_eq_right hminute0, max_eq_right hsecond0]
  rw [if_pos ⟨hhour, hminute, hsecond⟩]

/-- A fraction in `(-1, 0)` is processed exactly like its absolute value on
the previous day (the source's negative branch). -/
theorem dayFractionToDatetime_of_neg (d : ℤ) (f : α) (h : f < 0) (h2 : -1 < f) :
    dayFractionToDatetime d f = dayFractionToDatetime (d - 1) |f| := by
  have habs0 : ¬ |f| < 0 := not_lt.mpr (abs_nonneg f)
  have habs1 : ¬ (1:α) ≤ |f| := by
    rw [abs_of_neg h]
    push_neg
    linarith
  simp only [dayFractionToDatetime]
  rw [if_pos h, if_neg habs0, if_neg habs1]

/-- A fraction in `[1, 2)` is processed exactly like `f - 1` on the next day
(the source's overflow branch). -/
theorem dayFractionToDatetime_of_ge_one (d : ℤ) (f : α) (h : 1 ≤ f) (h2 : f < 2) :
    dayFractionToDatetime d f = dayFractionToDatetime (d + 1) (f - 1) := by
  have h0 : ¬ f < 0 := by push_neg; linarith
  have hs0 : ¬ f - 1 < 0 := by push_neg; linarith
  have hs1 : ¬ (1:α) ≤ f - 1 := by push_neg; linarith
  simp only [dayFractionToDatetime]
  rw [if_neg h0, if_pos h, if_neg hs0, if_neg hs1]

end ConversionLemmas

/-! ### Lemmas about the hour angle and event fractions -/

theorem eventTime_fixed (c : Calc.SolarCalculations) (e : Domain.FixedElevationEvent) :
    Calc.eventTime c (.fixed e) =
      match Calc.eventDayFraction c e with
      | some f => Option.map some (dayFractionToDatetime c.date f)
      | none => some none := rfl

theorem hourAngle_eq_some {c : Calc.SolarCalculations} {d ha : ℝ}
    (h : Calc.hourAngle c d = some ha) :
    ha = Calc.toDegrees (Real.arccos (Calc.hourAngleArg c d)) := by
  unfold Calc.hourAngle at h
  split at h
  · exact absurd h (by simp)
  · exact (Option.some.inj h).symm

theorem hourAngle_nonneg {c : Calc.SolarCalculations} {d ha : ℝ}
    (h : Calc.hourAngle c d = some ha) : 0 ≤ ha := by
  rw [hourAngle_eq_some h]
  unfold Calc.toDegrees
  have hpi : (0:ℝ) < Real.pi := Real.pi_pos
  have := Real.arccos_nonneg (Calc.hourAngleArg c d)
  positivity

theorem hourAngle_of_in_domain {c : Calc.SolarCalculations} {d : ℝ}
    (h1 : -1 ≤ Calc.hourAngleArg c d) (h2 : Calc.hourAngleArg c d ≤ 1) :
    Calc.hourAngle c d = some (Calc.toDegrees (Real.arccos (Calc.hourAngleArg c d))) := by
  unfold Calc.hourAngle
  rw [if_neg]
  push_neg
  exact ⟨h1, h2⟩

theorem eventDayFraction_asc {c : Calc.SolarCalculations} {d f : ℝ}
    (h : Calc.eventDayFraction c ⟨d, .ascending⟩ = some f) :
    ∃ ha, Calc.hourAngle c d = some ha ∧ f = c.solarNoonFraction - ha / 360 := by
  unfold Calc.eventDayFraction at h
  cases hh : Calc.hourAngle c d with
  | none => rw [hh] at h; simp at h
  | some ha =>
    rw [hh] at h
    simp only [Option.map_some] at h
    exact ⟨ha, rfl, (Option.some.inj h).symm⟩

theorem eventDayFraction_desc {c : Calc.SolarCalculations} {d f : ℝ}
    (h : Calc.eventDayFraction c ⟨d, .descending⟩ = some f) :
    ∃ ha, Calc.hourAngle c d = some ha ∧ f = c.solarNoonFraction + ha / 360 := by
  unfold Calc.eventDayFraction at h
  cases hh : Calc.hourAngle c d with
  | none => rw [hh] at h; simp at h
  | some ha =>
    rw [hh] at h
    simp only [Option.map_some] at h
    exact ⟨ha, rfl, (Option.some.inj h).symm⟩

/-- At latitude 0 and declination 0 the `acos` argument for threshold
`d ∈ [0, 90]` is exactly `cos((d+90)°)`, so the hour angle is `d + 90`
degrees. -/
theorem hourAngle_flat (dt : ℤ) (lon nf el d : ℝ) (h0 : 0 ≤ d) (h90 : d ≤ 90) :
    Calc.hourAngle ⟨dt, 0, lon, 0, nf, el⟩ d = some (d + 90) := by
  have hpi : (0:ℝ) < Real.pi := Real.pi_pos
  have hargeq : Calc.hourAngleArg ⟨dt, 0, lon, 0, nf, el⟩ d =
      Real.cos ((d + 90) * (Real.pi / 180)) := by
    simp only [Calc.hourAngleArg, Calc.toRadians]
    norm_num [Real.tan_zero, Real.cos_zero]
  rw [hourAngle_of_in_domain (by rw [hargeq]; exact Real.neg_one_le_cos _)
    (by rw [hargeq]; exact Real.cos_le_one _)]
  rw [hargeq]
  have hx0 : 0 ≤ (d + 90) * (Real.pi / 180) := mul_nonneg (by linarith) (by positivity)
  have hxpi : (d + 90) * (Real.pi / 180) ≤ Real.pi := by
    have h1 : (d + 90) * (Real.pi / 180) ≤ 180 * (Real.pi / 180) :=
      mul_le_mul_of_nonneg_right (by linarith) (by positivity)
    have h2 : (180:ℝ) * (Real.pi / 180) = Real.pi := by ring
    linarith
  rw [Real.arccos_cos hx0 hxpi]
  unfold Calc.toDegrees
  congr 1
  field_simp

theorem eventDayFraction_flat_asc (dt : ℤ) (lon nf el d : ℝ) (h0 : 0 ≤ d)
    (h90 : d ≤ 90) :
    Calc.eventDayFraction ⟨dt, 0, lon, 0, nf, el⟩ ⟨d, .ascending⟩ =
      some (nf - (d + 90) / 360) := by
  unfold Calc.eventDayFraction
  rw [hourAngle_flat dt lon nf el d h0 h90]
  rfl

theorem eventDayFraction_flat_desc (dt : ℤ) (lon nf el d : ℝ) (h0 : 0 ≤ d)
    (h90 : d ≤ 90) :
    Calc.eventDayFraction ⟨dt, 0, lon, 0, nf, el⟩ ⟨d, .descending⟩ =
      some (nf + (d + 90) / 360) := by
  unfold Calc.eventDayFraction
  rw [hourAngle_flat dt lon nf el d h0 h90]
  rfl

/-! ## Claims about the day-fraction conversion -/

/-- **C1.** The claim states that a negative day fraction is shifted into
`[0,1)` by *adding 1* while the anchor date moves one day back.  The source
instead replaces a negative fraction by its *absolute value*
(`day_fraction = day_fraction.abs()`, src/calc.rs line 142 and src/report.rs
line 166), which coincides with the claimed shift only at `-0.5` (the single
value the repository tests exercise).  At the fraction `-1/4` the code
produces 06:00:00 on the previous day, whereas shifting by `+1` (the
fraction `3/4`) lands at 18:00:00; and an event at fraction `-1/4` of day
`d` really occurs three quarters of the way through day `d - 1`, so the
claimed behaviour is the astronomically correct one and the code's `abs` is
a slip.  The `≥ 1` branch and the in-`[0,1)` branch behave as claimed. -/
theorem negative_fraction_uses_abs_not_shift :
    dayFractionToDatetime 0 (-1/4 : ℚ) = some (-1, 6, 0, 0) ∧
    dayFractionToDatetime 0 (-1/4 + 1 : ℚ) = some (0, 18, 0, 0) ∧
    (6 : ℤ) ≠ 18 := by
  refine ⟨?_, ?_, by decide⟩ <;>
    norm_num [dayFractionToDatetime, truncToZero, fractPart, abs_of_nonneg]

/-- **C4.** For every day fraction in `[0,1)` the conversion keeps the anchor
date and produces hour/minute/second by successive multiplication and
truncation toward zero (never rounding up), and the out-of-range inputs
`1.5` and `-0.5` land at 12:00:00 on the next resp. previous calendar day;
the spec's concrete cases `0.0 → 00:00:00`, `0.5 → 12:00:00` and
`0.99999 → 23:59:59` are included. -/
theorem day_fraction_truncation (d : ℤ) (f : ℚ) (h0 : 0 ≤ f) (h1 : f < 1) :
    dayFractionToDatetime d f =
      some (d, truncToZero (f * 24), truncToZero (fractPart (f * 24) * 60),
        truncToZero (fractPart (fractPart (f * 24) * 60) * 60)) ∧
    dayFractionToDatetime d (0 : ℚ) = some (d, 0, 0, 0) ∧
    dayFractionToDatetime d (1/2 : ℚ) = some (d, 12, 0, 0) ∧
    dayFractionToDatetime d (99999/100000 : ℚ) = some (d, 23, 59, 59) ∧
    dayFractionToDatetime d (3/2 : ℚ) = some (d + 1, 12, 0, 0) ∧
    dayFractionToDatetime d (-1/2 : ℚ) = some (d - 1, 12, 0, 0) := by
  refine ⟨(dayFractionToDatetime_of_unit d f h0 h1).1, ?_, ?_, ?_, ?_, ?_⟩ <;>
    norm_num [dayFractionToDatetime, truncToZero, fractPart, abs_of_nonneg]

/-- Witness for C4 at the concrete fraction `1/4`. -/
theorem day_fraction_truncation_witness :
    ((0:ℚ) ≤ 1/4 ∧ (1/4 : ℚ) < 1) ∧
    dayFractionToDatetime 0 (1/4 : ℚ) =
      some (0, truncToZero ((1/4 : ℚ) * 24), truncToZero (fractPart ((1/4 : ℚ) * 24) * 60),
        truncToZero (fractPart (fractPart ((1/4 : ℚ) * 24) * 60) * 60)) :=
  ⟨⟨by norm_num, by norm_num⟩,
    (day_fraction_truncation 0 (1/4) (by norm_num) (by norm_num)).1⟩

/-- **C10.** For every day fraction strictly between `-1` and `2` the
conversion is total: exactly one rollover correction applies, the resulting
components satisfy `hour ≤ 23`, `minute ≤ 59` and `second ≤ 59`, and the
`NaiveTime::from_hms` construction therefore cannot panic (the conversion
returns a value rather than the `none` that models the panic). -/
theorem day_fraction_total_one_day_out (d : ℤ) (f : ℚ) (hlo : -1 < f) (hhi : f < 2) :
    ∃ r, dayFractionToDatetime d f = some r ∧
      r.2.1 ≤ 23 ∧ r.2.2.1 ≤ 59 ∧ r.2.2.2 ≤ 59 := by
  rcases lt_or_le f 0 with hneg | h0c
  · have habs1 : |f| < 1 := by
      rw [abs_of_neg hneg]
      linarith
    obtain ⟨heq, -, hh, -, hm, -, hs⟩ :=
      dayFractionToDatetime_of_unit (d - 1) |f| (abs_nonneg f) habs1
    rw [dayFractionToDatetime_of_neg d f hneg hlo, heq]
    exact ⟨_, rfl, hh, hm, hs⟩
  · rcases lt_or_le f 1 with hlt1 | hge1
    · obtain ⟨heq, -, hh, -, hm, -, hs⟩ := dayFractionToDatetime_of_unit d f h0c hlt1
      rw [heq]
      exact ⟨_, rfl, hh, hm, hs⟩
    · obtain ⟨heq, -, hh, -, hm, -, hs⟩ :=
        dayFractionToDatetime_of_unit (d + 1) (f - 1) (by linarith) (by linarith)
      rw [dayFractionToDatetime_of_ge_one d f hge1 hhi, heq]
      exact ⟨_, rfl, hh, hm, hs⟩

/-- Witness for C10 at the concrete fraction `3/2`. -/
theorem day_fraction_total_one_day_out_witness :
    ((-1 : ℚ) < 3/2 ∧ (3/2 : ℚ) < 2) ∧
    ∃ r, dayFractionToDatetime 0 (3/2 : ℚ) = some r ∧
      r.2.1 ≤ 23 ∧ r.2.2.1 ≤ 59 ∧ r.2.2.2 ≤ 59 :=
  ⟨⟨by norm_num, by norm_num⟩,
    day_fraction_total_one_day_out 0 (3/2) (by norm_num) (by norm_num)⟩

/-! ## Claim about event construction -/

/-- **C7.** `Event::new` yields the `InvalidEvent` configuration error
exactly for (normalized) names outside the fixed eleven-name vocabulary, and
succeeds exactly for vocabulary names for which the degrees-below-horizon
argument is present whenever the chosen event is a custom one; for a custom
event with no altitude the outcome is the `unwrap` panic (and never a
successful construction), so the altitude is required precisely for the
custom events and ignored for all others. -/
theorem event_new_vocabulary_and_altitude (name : String) (alt : Option ℚ) :
    (Enums.Event.new name alt = .configErrorInvalidEvent ↔
      name.trim.toLower ∉ Enums.vocabulary) ∧
    ((∃ e, Enums.Event.new name alt = .ok e) ↔
      name.trim.toLower ∈ Enums.vocabulary ∧
        ((name.trim.toLower = "custom_am" ∨ name.trim.toLower = "custom_pm") →
          alt ≠ none)) ∧
    (Enums.Event.new name alt = .panicked ↔
      (name.trim.toLower = "custom_am" ∨ name.trim.toLower = "custom_pm") ∧
        alt = none) := by
  unfold Enums.Event.new
  generalize name.trim.toLower = s
  split <;> rcases alt with _ | a <;> simp_all [Enums.vocabulary]

/-- Witness for C7: the characterisation instantiated at the name
`"sunrise"` with no altitude supplied. -/
theorem event_new_vocabulary_and_altitude_witness :
    (Enums.Event.new "sunrise" (none : Option ℚ) = .configErrorInvalidEvent ↔
      "sunrise".trim.toLower ∉ Enums.vocabulary) ∧
    (Enums.Event.new "sunrise" (none : Option ℚ) = .panicked ↔
      ("sunrise".trim.toLower = "custom_am" ∨ "sunrise".trim.toLower = "custom_pm") ∧
        (none : Option ℚ) = none) :=
  ⟨(event_new_vocabulary_and_altitude "sunrise" none).1,
    (event_new_vocabulary_and_altitude "sunrise" none).2.2⟩

/-! ## Claims about the wait scheduler -/

/-- **C5.** With wake time `event_time + offset`, the wait operation fails
immediately with the `PastEvent` error — before any suspension is attempted —
exactly when the wake time is strictly before the current time; for a wake
time at or after the current time it proceeds to suspend until that absolute
instant. -/
theorem wait_past_event_check (eventT offset now : ℤ) :
    (Sched.utilsWait (eventT + offset) now = .error .pastEvent ↔
      eventT + offset < now) ∧
    (now ≤ eventT + offset →
      Sched.utilsWait (eventT + offset) now = .ok (eventT + offset)) := by
  unfold Sched.utilsWait
  constructor
  · split
    · simp
      omega
    · simp
      omega
  · intro h
    rw [if_neg (by omega)]

/-- Witness for C5: a wake time 10 seconds in the future is accepted, and the
failure condition is equivalent to the wake time lying in the past. -/
theorem wait_past_event_check_witness :
    (Sched.utilsWait (100 + 10) 100 = .error .pastEvent ↔ (100 + 10 : ℤ) < 100) ∧
    Sched.utilsWait (100 + 10) 100 = .ok (100 + 10) :=
  ⟨(wait_past_event_check 100 10 100).1,
    (wait_past_event_check 100 10 100).2 (by norm_num)⟩

/-- **C6.** After the suspension returns, the wait succeeds unconditionally
when `run_missed_task` is set; otherwise it fails with `EventMissed` carrying
the overrun `now - wait_until` exactly when that overrun exceeds the fixed
30-second tolerance, and succeeds when the overrun is at most 30 seconds. -/
theorem wait_missed_tolerance (runMissed : Bool) (waitUntil now : ℤ) :
    (runMissed = true → Sched.afterSleep runMissed waitUntil now = .ok ()) ∧
    (runMissed = false →
      ((Sched.afterSleep runMissed waitUntil now =
          .error (.eventMissed (now - waitUntil)) ↔ 30 < now - waitUntil) ∧
        (now - waitUntil ≤ 30 →
          Sched.afterSleep runMissed waitUntil now = .ok ()))) := by
  unfold Sched.afterSleep
  constructor
  · intro h
    rw [if_pos h]
  · intro h
    subst h
    simp only [Bool.false_eq_true, if_false]
    constructor
    · split
      · simp
        omega
      · simp
        omega
    · intro h30
      rw [if_neg (by omega)]

/-! ## Claims about the event-time resolver -/

/-- **C2.** For every calculation context and fixed-elevation event, the
resolved `EventTime` is absent (`EventTime(None)`, modelled `some none`)
exactly when the hour-angle `acos` argument
`cos(90° + degrees_below_horizon)/(cos(latitude)·cos(declination)) −
tan(latitude)·tan(declination)` falls outside `[-1, 1]` (the NaN case of
`acos`), and no non-numeric value is propagated; when the argument is in
range, the returned time is the date-time conversion of
`solar_noon_fraction ∓ hour_angle/360` (minus for ascending events, plus for
descending ones). -/
theorem event_time_arccos_domain (c : Calc.SolarCalculations)
    (e : Domain.FixedElevationEvent) :
    (Calc.eventTime c (.fixed e) = some none ↔
      Calc.hourAngleArg c e.degreesBelowHorizon < -1 ∨
        1 < Calc.hourAngleArg c e.degreesBelowHorizon) ∧
    (-1 ≤ Calc.hourAngleArg c e.degreesBelowHorizon →
      Calc.hourAngleArg c e.degreesBelowHorizon ≤ 1 →
      Calc.eventTime c (.fixed e) =
        Option.map some (dayFractionToDatetime c.date
          (match e.solarDirection with
            | .ascending =>
              c.solarNoonFraction -
                Calc.toDegrees
                  (Real.arccos (Calc.hourAngleArg c e.degreesBelowHorizon)) / 360
            | .descending =>
              c.solarNoonFraction +
                Calc.toDegrees
                  (Real.arccos (Calc.hourAngleArg c e.degreesBelowHorizon)) / 360))) := by
  obtain ⟨d, dir⟩ := e
  by_cases hdom :
      Calc.hourAngleArg c d < -1 ∨ 1 < Calc.hourAngleArg c d
  · have hha : Calc.hourAngle c d = none := by
      unfold Calc.hourAngle
      rw [if_pos hdom]
    have hedf : Calc.eventDayFraction c ⟨d, dir⟩ = none := by
      unfold Calc.eventDayFraction
      rw [hha]
      rfl
    constructor
    · rw [eventTime_fixed, hedf]
      simpa using hdom
    · intro h1 h2
      rcases hdom with h | h
      · exact absurd h1 (by simpa using h)
      · exact absurd h2 (by simpa using h)
  · have hdom' := hdom
    push_neg at hdom'
    have hha := hourAngle_of_in_domain hdom'.1 hdom'.2
    have hedf : Calc.eventDayFraction c ⟨d, dir⟩ =
        some (match dir with
          | .ascending =>
            c.solarNoonFraction -
              Calc.toDegrees (Real.arccos (Calc.hourAngleArg c d)) / 360
          | .descending =>
            c.solarNoonFraction +
              Calc.toDegrees (Real.arccos (Calc.hourAngleArg c d)) / 360) := by
      unfold Calc.eventDayFraction
      rw [hha]
      rfl
    have hET : Calc.eventTime c (.fixed ⟨d, dir⟩) =
        Option.map some (dayFractionToDatetime c.date
          (match dir with
            | .ascending =>
              c.solarNoonFraction -
                Calc.toDegrees (Real.arccos (Calc.hourAngleArg c d)) / 360
            | .descending =>
              c.solarNoonFraction +
                Calc.toDegrees (Real.arccos (Calc.hourAngleArg c d)) / 360)) := by
      rw [eventTime_fixed, hedf]
    constructor
    · rw [hET]
      constructor
      · intro hEq
        cases hdfd : dayFractionToDatetime c.date
            (match dir with
              | .ascending =>
                c.solarNoonFraction -
                  Calc.toDegrees (Real.arccos (Calc.hourAngleArg c d)) / 360
              | .descending =>
                c.solarNoonFraction +
                  Calc.toDegrees (Real.arccos (Calc.hourAngleArg c d)) / 360) with
        | none => rw [hdfd] at hEq; simp at hEq
        | some t => rw [hdfd] at hEq; simp at hEq
      · intro h
        exact absurd h hdom
    · intro h1 h2
      exact hET

/-- Witness for C2: at latitude 0, declination 0 and threshold 0 the `acos`
argument is exactly 0, well inside `[-1, 1]`, and the resolver returns the
converted fraction `solar_noon_fraction - 90°/360`. -/
theorem event_time_arccos_domain_witness :
    (-1 ≤ Calc.hourAngleArg ⟨0, 0, 0, 0, 1/2, 0⟩ (0:ℝ) ∧
      Calc.hourAngleArg ⟨0, 0, 0, 0, 1/2, 0⟩ (0:ℝ) ≤ 1) ∧
    Calc.eventTime ⟨0, 0, 0, 0, 1/2, 0⟩ (.fixed ⟨0, .ascending⟩) =
      Option.map some (dayFractionToDatetime 0
        ((1:ℝ)/2 -
          Calc.toDegrees (Real.arccos (Calc.hourAngleArg ⟨0, 0, 0, 0, 1/2, 0⟩ (0:ℝ))) / 360)) := by
  have h90 : ((0:ℝ) + 90) * (Real.pi / 180) = Real.pi / 2 := by ring
  have harg : Calc.hourAngleArg ⟨0, 0, 0, 0, 1/2, 0⟩ (0:ℝ) = 0 := by
    simp only [Calc.hourAngleArg, Calc.toRadians, h90]
    norm_num [Real.cos_pi_div_two, Real.tan_zero]
  refine ⟨⟨by rw [harg]; norm_num, by rw [harg]; norm_num⟩, ?_⟩
  exact (event_time_arccos_domain ⟨0, 0, 0, 0, 1/2, 0⟩ ⟨0, .ascending⟩).2
    (by rw [harg]; norm_num) (by rw [harg]; norm_num)

/-- **C9.** `solar_noon` and `event_time` applied to the solar noon event
always produce a *present* `EventTime`: whatever value is returned, the
contained option is structurally `Some`; there is no absent branch, which is
what makes the `unwrap` of the solar noon time in
`SolarCalculations::max_solar_elevation` safe. -/
theorem solar_noon_always_present (c : Calc.SolarCalculations) :
    Calc.eventTime c (.variableElevation .solarNoon) = Calc.solarNoon c ∧
    ∀ et, Calc.solarNoon c = some et → ∃ t, et = some t := by
  refine ⟨rfl, fun et h => ?_⟩
  unfold Calc.solarNoon at h
  cases hdfd : dayFractionToDatetime c.date c.solarNoonFraction with
  | none => rw [hdfd] at h; simp at h
  | some t =>
    rw [hdfd] at h
    exact ⟨t, (Option.some.inj h).symm⟩

/-- Witness for C9 at a context whose solar noon fraction is `1/2`. -/
theorem solar_noon_always_present_witness :
    Calc.solarNoon ⟨0, 0, 0, 0, 1/2, 0⟩ = some (some (0, 12, 0, 0)) ∧
    ∃ t, (some ((0:ℤ), (12:ℤ), (0:ℤ), (0:ℤ)) : Option (ℤ × ℤ × ℤ × ℤ)) = some t := by
  have h : Calc.solarNoon ⟨0, 0, 0, 0, 1/2, 0⟩ = some (some (0, 12, 0, 0)) := by
    unfold Calc.solarNoon
    norm_num [dayFractionToDatetime, truncToZero, fractPart]
  exact ⟨h, (solar_noon_always_present ⟨0, 0, 0, 0, 1/2, 0⟩).2 _ h⟩

/-- **C8 (counterexample).** The claim asserts that, whenever the hour angles
are defined, a larger degrees-below-horizon threshold yields an *earlier*
ascending event time, in particular astronomical dawn ≤ civil dawn as
resolved date-times.  In a context with latitude 0, declination 0 and solar
noon fraction `1/10`, the civil dawn fraction is `1/10 - 96/360 = -1/6` and
the astronomical dawn fraction is `1/10 - 108/360 = -1/5`; both are negative,
so the conversion reflects them through its absolute-value branch, resolving
civil dawn to 04:00:00 and astronomical dawn to 04:48:00 on the previous day
— astronomical dawn comes out strictly *later* than civil dawn, refuting the
claimed time ordering. -/
theorem dawn_order_counterexample :
    Calc.eventTime ⟨0, 0, 0, 0, 1/10, 0⟩ (.fixed ⟨6, .ascending⟩) =
      some (some (-1, 4, 0, 0)) ∧
    Calc.eventTime ⟨0, 0, 0, 0, 1/10, 0⟩ (.fixed ⟨18, .ascending⟩) =
      some (some (-1, 4, 48, 0)) ∧
    naiveSeconds (-1, 4, 0, 0) < naiveSeconds (-1, 4, 48, 0) := by
  refine ⟨?_, ?_, by norm_num [naiveSeconds]⟩
  · rw [eventTime_fixed,
      eventDayFraction_flat_asc 0 0 (1/10) 0 6 (by norm_num) (by norm_num)]
    norm_num [dayFractionToDatetime, truncToZero, fractPart, abs_of_nonneg]
  · rw [eventTime_fixed,
      eventDayFraction_flat_asc 0 0 (1/10) 0 18 (by norm_num) (by norm_num)]
    norm_num [dayFractionToDatetime, truncToZero, fractPart, abs_of_nonneg]

/-- **C8 (amended).** In elapsed-time terms — the event day fractions
computed by the resolver before date-time conversion — the ordering holds
non-strictly: for thresholds `d₁ ≤ d₂` in the `Altitude` range `[-90, 90]`,
and for any context with `cos(latitude)·cos(declination) ≥ 0` (true for all
validated latitudes and all declinations produced by `arcsin`), whenever the
four hour angles are defined the fractions satisfy ascending(d₂) ≤
ascending(d₁) ≤ solar noon ≤ descending(d₁) ≤ descending(d₂): larger
thresholds give earlier-or-equal dawns and later-or-equal dusks, and every
dawn fraction is at or before solar noon, every dusk fraction at or after
it.  (Equality occurs when the `acos` argument reaches 1, and the converted
date-times can additionally reorder across a day rollover because of the
absolute-value branch recorded in C1, so the strict date-time ordering of
the original claim does not hold.) -/
theorem event_fraction_ordering (c : Calc.SolarCalculations)
    (d₁ d₂ f₁ f₂ g₁ g₂ : ℝ)
    (hd1 : -90 ≤ d₁) (h12 : d₁ ≤ d₂) (hd2 : d₂ ≤ 90)
    (hden : 0 ≤ Real.cos (Calc.toRadians c.latitude) *
      Real.cos (Calc.toRadians c.solarDeclination))
    (e₁ : Calc.eventDayFraction c ⟨d₁, .ascending⟩ = some f₁)
    (e₂ : Calc.eventDayFraction c ⟨d₂, .ascending⟩ = some f₂)
    (e₃ : Calc.eventDayFraction c ⟨d₁, .descending⟩ = some g₁)
    (e₄ : Calc.eventDayFraction c ⟨d₂, .descending⟩ = some g₂) :
    f₂ ≤ f₁ ∧ f₁ ≤ c.solarNoonFraction ∧
      c.solarNoonFraction ≤ g₁ ∧ g₁ ≤ g₂ := by
  obtain ⟨ha₁, hha₁, hf₁⟩ := eventDayFraction_asc e₁
  obtain ⟨ha₂, hha₂, hf₂⟩ := eventDayFraction_asc e₂
  obtain ⟨hb₁, hhb₁, hg₁⟩ := eventDayFraction_desc e₃
  obtain ⟨hb₂, hhb₂, hg₂⟩ := eventDayFraction_desc e₄
  have hEq1 : ha₁ = hb₁ := Option.some.inj (hha₁.symm.trans hhb₁)
  have hEq2 : ha₂ = hb₂ := Option.some.inj (hha₂.symm.trans hhb₂)
  have hnn₁ : 0 ≤ ha₁ := hourAngle_nonneg hha₁
  have hnn₂ : 0 ≤ ha₂ := hourAngle_nonneg hha₂
  have hpi : (0:ℝ) < Real.pi := Real.pi_pos
  have hcosmono : Real.cos (Calc.toRadians (d₂ + 90)) ≤
      Real.cos (Calc.toRadians (d₁ + 90)) := by
    unfold Calc.toRadians
    apply Real.cos_le_cos_of_nonneg_of_le_pi
    · exact mul_nonneg (by linarith) (by positivity)
    · have h1 : (d₂ + 90) * (Real.pi / 180) ≤ 180 * (Real.pi / 180) :=
        mul_le_mul_of_nonneg_right (by linarith) (by positivity)
      have h2 : (180:ℝ) * (Real.pi / 180) = Real.pi := by ring
      linarith
    · exact mul_le_mul_of_nonneg_right (by linarith) (by positivity)
  have hargle : Calc.hourAngleArg c d₂ ≤ Calc.hourAngleArg c d₁ := by
    unfold Calc.hourAngleArg
    exact sub_le_sub_right (div_le_div_of_nonneg_right hcosmono hden) _
  have harccos : Real.arccos (Calc.hourAngleArg c d₁) ≤
      Real.arccos (Calc.hourAngleArg c d₂) := by
    rw [Real.arccos_eq_pi_div_two_sub_arcsin, Real.arccos_eq_pi_div_two_sub_arcsin]
    have := Real.monotone_arcsin hargle
    linarith
  have hhale : ha₁ ≤ ha₂ := by
    rw [hourAngle_eq_some hha₁, hourAngle_eq_some hha₂]
    unfold Calc.toDegrees
    exact mul_le_mul_of_nonneg_right harccos (by positivity)
  rw [← hEq1] at hg₁
  rw [← hEq2] at hg₂
  refine ⟨?_, ?_, ?_, ?_⟩
  · rw [hf₁, hf₂]
    linarith
  · rw [hf₁]
    linarith
  · rw [hg₁]
    linarith
  · rw [hg₁, hg₂]
    linarith

/-- Witness for the amended C8 at latitude 0, declination 0, solar noon
fraction `1/2`, with the civil (6°) and astronomical (18°) thresholds: the
fractions are `1/5 ≤ 7/30 ≤ 1/2 ≤ 23/30 ≤ 4/5`. -/
theorem event_fraction_ordering_witness :
    ((-90:ℝ) ≤ 6 ∧ (6:ℝ) ≤ 18 ∧ (18:ℝ) ≤ 90 ∧
      0 ≤ Real.cos (Calc.toRadians (0:ℝ)) * Real.cos (Calc.toRadians (0:ℝ)) ∧
      Calc.eventDayFraction ⟨0, 0, 0, 0, 1/2, 0⟩ ⟨6, .ascending⟩ = some (7/30) ∧
      Calc.eventDayFraction ⟨0, 0, 0, 0, 1/2, 0⟩ ⟨18, .ascending⟩ = some (1/5) ∧
      Calc.eventDayFraction ⟨0, 0, 0, 0, 1/2, 0⟩ ⟨6, .descending⟩ = some (23/30) ∧
      Calc.eventDayFraction ⟨0, 0, 0, 0, 1/2, 0⟩ ⟨18, .descending⟩ = some (4/5)) ∧
    ((1:ℝ)/5 ≤ 7/30 ∧ (7:ℝ)/30 ≤ (1:ℝ)/2 ∧
      (1:ℝ)/2 ≤ 23/30 ∧ (23:ℝ)/30 ≤ 4/5) := by
  have hden : 0 ≤ Real.cos (Calc.toRadians (0:ℝ)) * Real.cos (Calc.toRadians (0:ℝ)) := by
    norm_num [Calc.toRadians, Real.cos_zero]
  have e₁ : Calc.eventDayFraction ⟨0, 0, 0, 0, 1/2, 0⟩ ⟨6, .ascending⟩ =
      some (7/30) := by
    rw [eventDayFraction_flat_asc 0 0 (1/2) 0 6 (by norm_num) (by norm_num)]
    norm_num
  have e₂ : Calc.eventDayFraction ⟨0, 0, 0, 0, 1/2, 0⟩ ⟨18, .ascending⟩ =
      some (1/5) := by
    rw [eventDayFraction_flat_asc 0 0 (1/2) 0 18 (by norm_num) (by norm_num)]
    norm_num
  have e₃ : Calc.eventDayFraction ⟨0, 0, 0, 0, 1/2, 0⟩ ⟨6, .descending⟩ =
      some (23/30) := by
    rw [eventDayFraction_flat_desc 0 0 (1/2) 0 6 (by norm_num) (by norm_num)]
    norm_num
  have e₄ : Calc.eventDayFraction ⟨0, 0, 0, 0, 1/2, 0⟩ ⟨18, .descending⟩ =
      some (4/5) := by
    rw [eventDayFraction_flat_desc 0 0 (1/2) 0 18 (by norm_num) (by norm_num)]
    norm_num
  refine ⟨⟨by norm_num, by norm_num, by norm_num, hden, e₁, e₂, e₃, e₄⟩, ?_⟩
  have hord := event_fraction_ordering ⟨0, 0, 0, 0, 1/2, 0⟩ 6 18 (7/30) (1/5)
    (23/30) (4/5) (by norm_num) (by norm_num) (by norm_num) hden e₁ e₂ e₃ e₄
  exact ⟨hord.1, hord.2.1, hord.2.2.1, hord.2.2.2⟩

/-- Witness for C6: an overrun of 40 seconds with `run_missed_task = false`
raises `EventMissed 40`, while `run_missed_task = true` always succeeds. -/
theorem wait_missed_tolerance_witness :
    Sched.afterSleep true 0 1000 = .ok () ∧
    (Sched.afterSleep false 0 40 = .error (.eventMissed (40 - 0)) ↔
      (30 : ℤ) < 40 - 0) ∧
    Sched.afterSleep false 0 20 = .ok () :=
  ⟨(wait_missed_tolerance true 0 1000).1 rfl,
    ((wait_missed_tolerance false 0 40).2 rfl).1,
    ((wait_missed_tolerance false 0 20).2 rfl).2 (by norm_num)⟩

end Heliocron
